import Mathlib

/-!
Shallow embedding of the handwrite stroke/curve engine (`src/canvas.rs`).

Points are modelled over exact ordered fields: `ℚ` for the decidable
development (Box, Curve, Canvas, erase), `ℝ` where the source normalizes a
vector with a square root (`Rectangle::along_line_segment`).  The `f32`
rounding of the source is abstracted away; all comparisons and arithmetic
are exact.
-/

namespace Handwrite

/-- A 2D vector (glam `Vec2`), generic over the scalar field. -/
structure Vec2 (α : Type) where
  x : α
  y : α
  deriving DecidableEq

section VecOps

variable {α : Type} [LinearOrderedField α]

/-- Componentwise subtraction (glam `Vec2: Sub`). -/
def Vec2.sub (u v : Vec2 α) : Vec2 α := ⟨u.x - v.x, u.y - v.y⟩

/-- Dot product (glam `Vec2::dot`). -/
def Vec2.dot (u v : Vec2 α) : α := u.x * v.x + u.y * v.y

/-- Counterclockwise perpendicular (glam `Vec2::perp`: `(-y, x)`). -/
def Vec2.perp (v : Vec2 α) : Vec2 α := ⟨-v.y, v.x⟩

/-- Componentwise minimum (glam `Vec2::min`). -/
def Vec2.min (u v : Vec2 α) : Vec2 α := ⟨Min.min u.x v.x, Min.min u.y v.y⟩

/-- Componentwise maximum (glam `Vec2::max`). -/
def Vec2.max (u v : Vec2 α) : Vec2 α := ⟨Max.max u.x v.x, Max.max u.y v.y⟩

/-- Vector-times-scalar (glam `Vec2: Mul<f32>`). -/
def Vec2.mul (v : Vec2 α) (c : α) : Vec2 α := ⟨v.x * c, v.y * c⟩

/-- Scalar-times-vector (glam `f32: Mul<Vec2>`). -/
def Vec2.smul (c : α) (v : Vec2 α) : Vec2 α := ⟨c * v.x, c * v.y⟩

end VecOps

/-- The `Point` type of the source (`pub type Point = Vec2`), modelled over `ℚ`. -/
abbrev Point := Vec2 ℚ

/-- A rectangle with no rotation information (`canvas.rs` `Box`).
The source documents the invariant `p1.x <= p2.x, p1.y <= p2.y`. -/
structure Box (α : Type) where
  p1 : Vec2 α
  p2 : Vec2 α
  deriving DecidableEq

section BoxOps

variable {α : Type} [LinearOrderedField α]

/-- The documented invariant of `Box`: `p1.x <= p2.x, p1.y <= p2.y`. -/
def Box.invariant (b : Box α) : Prop := b.p1.x ≤ b.p2.x ∧ b.p1.y ≤ b.p2.y

/-- Embeds `Box::expand_to_contain`: `p1 = p1.min(p); p2 = p2.max(p)`. -/
def Box.expand_to_contain (b : Box α) (p : Vec2 α) : Box α :=
  { p1 := b.p1.min p, p2 := b.p2.max p }

/-- Embeds `Box::contains`:
`p1.x <= p.x && p1.y <= p.y && p2.x >= p.x && p2.y >= p.y`. -/
def Box.contains (b : Box α) (p : Vec2 α) : Bool :=
  decide (b.p1.x ≤ p.x) && decide (b.p1.y ≤ p.y) &&
  decide (b.p2.x ≥ p.x) && decide (b.p2.y ≥ p.y)

end BoxOps

/-- A rectangle with an orientation (`canvas.rs` `Rectangle`): corner `a`,
side vectors `ab` and `ad` (intended to be orthogonal, not enforced). -/
structure Rectangle (α : Type) where
  a : Vec2 α
  ab : Vec2 α
  ad : Vec2 α
  deriving DecidableEq

/-- Embeds `Rectangle::contains`: starting from `contains = true`, for each
basis vector in `[ab, ad]` it computes `proj = ap.dot(basis)` and folds in
`0 <= proj && proj <= basis.dot(basis)` with boolean AND. -/
def Rectangle.contains {α : Type} [LinearOrderedField α]
    (r : Rectangle α) (p : Vec2 α) : Bool :=
  let ap : Vec2 α := p.sub r.a
  [r.ab, r.ad].foldl
    (fun c basis_vec =>
      let proj := ap.dot basis_vec
      c && (decide ((0 : α) ≤ proj) && decide (proj ≤ basis_vec.dot basis_vec)))
    true

/-- Length of a real vector: `sqrt (v . v)` (glam `Vec2::length`). -/
noncomputable def Vec2.length (v : Vec2 ℝ) : ℝ := Real.sqrt (v.dot v)

/-- Embeds glam `Vec2::normalize_or_zero`: `v * (1/length)` when the
reciprocal of the length is finite and positive (for finite input: when the
length is positive), the zero vector otherwise. -/
noncomputable def Vec2.normalize_or_zero (v : Vec2 ℝ) : Vec2 ℝ :=
  if 0 < v.length then v.mul (1 / v.length) else ⟨0, 0⟩

/-- Embeds `Rectangle::along_line_segment`:
`ab = v; ad = v.perp().normalize_or_zero() * w; a = p - 0.5 * ad`. -/
noncomputable def Rectangle.along_line_segment (p v : Vec2 ℝ) (w : ℝ) : Rectangle ℝ :=
  let ab := v
  let ad := (v.perp.normalize_or_zero).mul w
  let a := p.sub (Vec2.smul 0.5 ad)
  { a := a, ab := ab, ad := ad }

/-- A polyline with its bounding box (`canvas.rs` `Curve`). -/
structure Curve where
  points : List Point
  bounding_box : Box ℚ
  deriving DecidableEq

/-- Embeds `Curve::new`: a one-point curve whose bounding box is the
degenerate box at that point. -/
def Curve.new (first_point : Point) : Curve :=
  { points := [first_point]
    bounding_box := { p1 := first_point, p2 := first_point } }

/-- Embeds `Curve::add_point`: push the point, expand the bounding box. -/
def Curve.add_point (c : Curve) (p : Point) : Curve :=
  { points := c.points ++ [p]
    bounding_box := c.bounding_box.expand_to_contain p }

/-- Error returned when starting a new stroke when one is already in
progress (`canvas.rs` `AlreadyExists`; the spec calls it `AlreadyInProgress`). -/
structure AlreadyExists where
  deriving DecidableEq

/-- Error returned when adding a point to or finishing the current stroke,
but the current stroke does not exist (`canvas.rs` `DoesntExist`; the spec
calls it `NotInProgress`). -/
structure DoesntExist where
  deriving DecidableEq

/-- The canvas (`canvas.rs` `Canvas`): committed curves plus the optional
in-progress curve. -/
structure Canvas where
  curves : List Curve
  current_curve : Option Curve
  deriving DecidableEq

/-- The `Default` instance of `Canvas`: empty collection, no stroke. -/
def Canvas.default : Canvas := { curves := [], current_curve := none }

/-- Embeds `Canvas::begin_stroke`.  Rust mutates `&mut self` and returns
`Result<(), AlreadyExists>`; we return the result together with the state
after the call. -/
def Canvas.begin_stroke (c : Canvas) (first_point : Point) :
    Except AlreadyExists Unit × Canvas :=
  if c.current_curve.isSome then (Except.error ⟨⟩, c)
  else (Except.ok (), { c with current_curve := some (Curve.new first_point) })

/-- Embeds `Canvas::continue_stroke`: appends a point to the in-progress
curve, or fails with `DoesntExist`. -/
def Canvas.continue_stroke (c : Canvas) (p : Point) :
    Except DoesntExist Unit × Canvas :=
  match c.current_curve with
  | some curve => (Except.ok (), { c with current_curve := some (curve.add_point p) })
  | none => (Except.error ⟨⟩, c)

/-- Embeds `Canvas::end_stroke`: `current_curve.take()` then push the taken
curve onto `curves`, or fail with `DoesntExist`.  Note the source pushes the
curve unconditionally — there is no check on its number of points. -/
def Canvas.end_stroke (c : Canvas) : Except DoesntExist Unit × Canvas :=
  match c.current_curve with
  | some curve => (Except.ok (), { curves := c.curves ++ [curve], current_curve := none })
  | none => (Except.error ⟨⟩, c)

/-- Embeds `Canvas::is_stroke_in_progress`: `current_curve.is_some()`. -/
def Canvas.is_stroke_in_progress (c : Canvas) : Bool := c.current_curve.isSome

/-- Embeds `Canvas::render`.  The source takes `&self` and draws every
committed curve in order, then the in-progress curve if present; we model the
output as the sequence of curves handed to the drawing collaborator, paired
with the state after the call (unchanged: the borrow is immutable). -/
def Canvas.render (c : Canvas) : List Curve × Canvas :=
  (c.curves ++ (match c.current_curve with | some curve => [curve] | none => []),
   c)

/-- Modelled from the spec: exact orientation determinant used by the
segment-intersection test; positive when `c` lies counterclockwise of the
directed segment `a`-`b`, zero when collinear. -/
def orient (a b c : Point) : ℚ :=
  (b.x - a.x) * (c.y - a.y) - (b.y - a.y) * (c.x - a.x)

/-- Modelled from the spec: given `c` collinear with the segment `a`-`b`,
decides whether `c` lies on that segment (boundary inclusive). -/
def on_segment (a b c : Point) : Bool :=
  decide (Min.min a.x b.x ≤ c.x ∧ c.x ≤ Max.max a.x b.x ∧
          Min.min a.y b.y ≤ c.y ∧ c.y ≤ Max.max a.y b.y)

/-- Modelled from the spec: exact, boundary-inclusive intersection test for
the closed segments `p1`-`p2` and `q1`-`q2` (the spec requires exact
polyline/segment intersection, with touching at a single shared point
counting as intersection).  Standard orientation-based test: the segments
properly cross when the endpoints of each straddle the other strictly, and
the collinear/touching cases are covered by the on-segment checks. -/
def segments_intersect (p1 p2 q1 q2 : Point) : Bool :=
  let d1 := orient q1 q2 p1
  let d2 := orient q1 q2 p2
  let d3 := orient p1 p2 q1
  let d4 := orient p1 p2 q2
  decide (((d1 < 0 ∧ 0 < d2) ∨ (0 < d1 ∧ d2 < 0)) ∧
          ((d3 < 0 ∧ 0 < d4) ∨ (0 < d3 ∧ d4 < 0)))
  || (decide (d1 = 0) && on_segment q1 q2 p1)
  || (decide (d2 = 0) && on_segment q1 q2 p2)
  || (decide (d3 = 0) && on_segment p1 p2 q1)
  || (decide (d4 = 0) && on_segment p1 p2 q2)

/-- Modelled from the spec: a curve (as a connected polyline, the union of
the segments between consecutive points) intersects the query segment
`q1`-`q2` iff some consecutive pair of its points forms a segment meeting
it.  A one-point curve has no segments and never intersects. -/
def Curve.intersects_segment (c : Curve) (q1 q2 : Point) : Bool :=
  (c.points.zip c.points.tail).any (fun e => segments_intersect e.1 e.2 q1 q2)

/-- Modelled from the spec: the erase-session state of §3/§4.5 — the
committed-curve collection shared with the canvas plus the optional
remembered previous eraser position (present iff an erase session is
active).  No erase code exists under `src/`; this state machine follows the
spec only. -/
structure EraseCanvas where
  curves : List Curve
  prev_erase_point : Option Point
  deriving DecidableEq

/-- Modelled from the spec: `begin_erasure` remembers the first point,
performs no deletion, and fails with `AlreadyInProgress` (source error type
`AlreadyExists`) when a session is already active. -/
def EraseCanvas.begin_erasure (c : EraseCanvas) (first_point : Point) :
    Except AlreadyExists Unit × EraseCanvas :=
  if c.prev_erase_point.isSome then (Except.error ⟨⟩, c)
  else (Except.ok (), { c with prev_erase_point := some first_point })

/-- Modelled from the spec: `continue_erasure(p)` forms the segment from the
remembered previous point to `p`, deletes every committed curve whose
polyline intersects that segment (survivors are exactly the curves that do
not intersect), and updates the remembered point to `p`; fails with
`NotInProgress` (source error type `DoesntExist`) when no session is
active. -/
def EraseCanvas.continue_erasure (c : EraseCanvas) (p : Point) :
    Except DoesntExist Unit × EraseCanvas :=
  match c.prev_erase_point with
  | some q =>
      (Except.ok (),
       { curves := c.curves.filter (fun curve => !(curve.intersects_segment q p))
         prev_erase_point := some p })
  | none => (Except.error ⟨⟩, c)

/-- Modelled from the spec: `end_erasure` clears the remembered point, or
fails with `NotInProgress` when no session is active. -/
def EraseCanvas.end_erasure (c : EraseCanvas) : Except DoesntExist Unit × EraseCanvas :=
  match c.prev_erase_point with
  | some _ => (Except.ok (), { c with prev_erase_point := none })
  | none => (Except.error ⟨⟩, c)

/-- Modelled from the spec: `is_erasure_in_progress` is a pure query. -/
def EraseCanvas.is_erasure_in_progress (c : EraseCanvas) : Bool :=
  c.prev_erase_point.isSome

/-! ## Box lemmas -/

/-- Unfolding of `Box::contains` into the four boundary-inclusive
comparisons. -/
theorem Box.contains_iff (b : Box ℚ) (p : Point) :
    b.contains p = true ↔
      (b.p1.x ≤ p.x ∧ p.x ≤ b.p2.x ∧ b.p1.y ≤ p.y ∧ p.y ≤ b.p2.y) := by
  simp only [Box.contains, Bool.and_eq_true, decide_eq_true_eq, ge_iff_le]
  tauto

/-- The expanded box always satisfies the documented corner invariant. -/
theorem Box.expand_invariant (b : Box ℚ) (p : Point) :
    (b.expand_to_contain p).invariant :=
  ⟨le_trans (min_le_right _ _) (le_max_right _ _),
   le_trans (min_le_right _ _) (le_max_right _ _)⟩

/-- The expanded box contains the new point. -/
theorem Box.expand_contains_point (b : Box ℚ) (p : Point) :
    (b.expand_to_contain p).contains p = true := by
  rw [Box.contains_iff]
  exact ⟨min_le_right _ _, le_max_right _ _, min_le_right _ _, le_max_right _ _⟩

/-- Expansion never loses a contained point. -/
theorem Box.expand_contains_mono (b : Box ℚ) (p q : Point)
    (h : b.contains q = true) : (b.expand_to_contain p).contains q = true := by
  rw [Box.contains_iff] at h ⊢
  obtain ⟨h1, h2, h3, h4⟩ := h
  exact ⟨le_trans (min_le_left _ _) h1, le_trans h2 (le_max_left _ _),
         le_trans (min_le_left _ _) h3, le_trans h4 (le_max_left _ _)⟩

/-- Folding a point sequence through expansion never loses a contained
point. -/
theorem Box.foldl_expand_contains_mono (ps : List Point) (b : Box ℚ) (q : Point)
    (h : b.contains q = true) :
    (ps.foldl Box.expand_to_contain b).contains q = true := by
  induction ps generalizing b with
  | nil => exact h
  | cons p ps ih => exact ih _ (Box.expand_contains_mono b p q h)

/-- Folding a point sequence through expansion yields a box containing every
point of the sequence. -/
theorem Box.foldl_expand_contains_mem (ps : List Point) (b : Box ℚ) (q : Point)
    (h : q ∈ ps) : (ps.foldl Box.expand_to_contain b).contains q = true := by
  induction ps generalizing b with
  | nil => cases h
  | cons p ps ih =>
      rcases List.mem_cons.mp h with h1 | h2
      · subst h1
        exact Box.foldl_expand_contains_mono ps _ q (Box.expand_contains_point b q)
      · exact ih _ h2

/-- Folding a point sequence through expansion preserves the invariant. -/
theorem Box.foldl_expand_invariant (ps : List Point) (b : Box ℚ)
    (h : b.invariant) : (ps.foldl Box.expand_to_contain b).invariant := by
  induction ps generalizing b with
  | nil => exact h
  | cons p ps ih => exact ih _ (Box.expand_invariant b p)

/-- A box satisfying the invariant contains both of its corners. -/
theorem Box.contains_corners (b : Box ℚ) (h : b.invariant) :
    b.contains b.p1 = true ∧ b.contains b.p2 = true := by
  rw [Box.contains_iff, Box.contains_iff]
  exact ⟨⟨le_refl _, h.1, le_refl _, h.2⟩, ⟨h.1, le_refl _, h.2, le_refl _⟩⟩

/-- C6: under the documented invariant, `expand_to_contain` produces the
smallest axis-aligned box containing the previous extent and the new point
(it satisfies the invariant, contains the new point and everything the old
box contained, and is contained in every invariant-satisfying box that
covers the old extent and the new point); and any sequence of points folded
through `expand_to_contain` yields a box satisfying the invariant and
containing every point of the sequence. -/
theorem expand_to_contain_correct (b : Box ℚ) (p : Point) (h : b.invariant) :
    (b.expand_to_contain p).invariant ∧
    (b.expand_to_contain p).contains p = true ∧
    (∀ q : Point, b.contains q = true → (b.expand_to_contain p).contains q = true) ∧
    (∀ c : Box ℚ, c.invariant →
      (∀ q : Point, b.contains q = true → c.contains q = true) →
      c.contains p = true →
      ∀ q : Point, (b.expand_to_contain p).contains q = true → c.contains q = true) ∧
    (∀ ps : List Point,
      (ps.foldl Box.expand_to_contain b).invariant ∧
      ∀ q : Point, q ∈ ps → (ps.foldl Box.expand_to_contain b).contains q = true) := by
  refine ⟨Box.expand_invariant b p, Box.expand_contains_point b p,
          fun q => Box.expand_contains_mono b p q, ?_,
          fun ps => ⟨Box.foldl_expand_invariant ps b h,
                     fun q hq => Box.foldl_expand_contains_mem ps b q hq⟩⟩
  intro c _hc hold hp q hq
  have hc1 := hold b.p1 (Box.contains_corners b h).1
  have hc2 := hold b.p2 (Box.contains_corners b h).2
  rw [Box.contains_iff] at hc1 hc2 hp hq ⊢
  refine ⟨le_trans (le_min hc1.1 hp.1) hq.1,
          le_trans hq.2.1 (max_le hc2.2.1 hp.2.1),
          le_trans (le_min hc1.2.2.1 hp.2.2.1) hq.2.2.1,
          le_trans hq.2.2.2 (max_le hc2.2.2.2 hp.2.2.2)⟩

/-- Witness for C6 at the degenerate box at the origin and the point
`(1, 2)`. -/
theorem expand_to_contain_correct_witness :
    (Box.mk (⟨0, 0⟩ : Vec2 ℚ) ⟨0, 0⟩).invariant ∧
    (((Box.mk (⟨0, 0⟩ : Vec2 ℚ) ⟨0, 0⟩).expand_to_contain ⟨1, 2⟩).invariant ∧
    ((Box.mk (⟨0, 0⟩ : Vec2 ℚ) ⟨0, 0⟩).expand_to_contain ⟨1, 2⟩).contains ⟨1, 2⟩ = true ∧
    (∀ q : Point, (Box.mk (⟨0, 0⟩ : Vec2 ℚ) ⟨0, 0⟩).contains q = true →
      ((Box.mk (⟨0, 0⟩ : Vec2 ℚ) ⟨0, 0⟩).expand_to_contain ⟨1, 2⟩).contains q = true) ∧
    (∀ c : Box ℚ, c.invariant →
      (∀ q : Point, (Box.mk (⟨0, 0⟩ : Vec2 ℚ) ⟨0, 0⟩).contains q = true → c.contains q = true) →
      c.contains ⟨1, 2⟩ = true →
      ∀ q : Point,
        ((Box.mk (⟨0, 0⟩ : Vec2 ℚ) ⟨0, 0⟩).expand_to_contain ⟨1, 2⟩).contains q = true →
        c.contains q = true) ∧
    (∀ ps : List Point,
      (ps.foldl Box.expand_to_contain (Box.mk (⟨0, 0⟩ : Vec2 ℚ) ⟨0, 0⟩)).invariant ∧
      ∀ q : Point, q ∈ ps →
        (ps.foldl Box.expand_to_contain (Box.mk (⟨0, 0⟩ : Vec2 ℚ) ⟨0, 0⟩)).contains q = true)) :=
  ⟨⟨le_refl 0, le_refl 0⟩,
   expand_to_contain_correct (Box.mk ⟨0, 0⟩ ⟨0, 0⟩) ⟨1, 2⟩ ⟨le_refl 0, le_refl 0⟩⟩

/-- C7 counterexample: read literally, the claimed condition
`p1.x <= p.x <= p2.x and p1.y <= p2.y <= p.y` fails against the code at the
box `(0,0)-(10,10)` and the point `(5,5)` (which the code, and the claim
itself, say is contained): the clause `p2.y <= p.y` would demand
`10 <= 5`. -/
theorem box_contains_claim_counterexample :
    ¬ (((Box.mk (⟨0, 0⟩ : Vec2 ℚ) ⟨10, 10⟩).contains ⟨5, 5⟩ = true) ↔
       ((0 : ℚ) ≤ 5 ∧ (5 : ℚ) ≤ 10 ∧ (0 : ℚ) ≤ 10 ∧ (10 : ℚ) ≤ 5)) := by
  decide

/-- C7 (amended: the y-clause is `p1.y <= p.y <= p2.y`, matching the code):
`Box::contains` returns true iff `p1.x <= p.x <= p2.x` and
`p1.y <= p.y <= p2.y`, boundary inclusive; the box `(0,0)-(10,10)` contains
`(0,0)`, `(10,10)` and `(5,5)` but not `(10.0001, 5)`; and a box constructed
from a single point contains that exact point. -/
theorem box_contains_spec :
    (∀ (b : Box ℚ) (p : Point),
      b.contains p = true ↔
        (b.p1.x ≤ p.x ∧ p.x ≤ b.p2.x ∧ b.p1.y ≤ p.y ∧ p.y ≤ b.p2.y)) ∧
    (Box.mk (⟨0, 0⟩ : Vec2 ℚ) ⟨10, 10⟩).contains ⟨0, 0⟩ = true ∧
    (Box.mk (⟨0, 0⟩ : Vec2 ℚ) ⟨10, 10⟩).contains ⟨10, 10⟩ = true ∧
    (Box.mk (⟨0, 0⟩ : Vec2 ℚ) ⟨10, 10⟩).contains ⟨5, 5⟩ = true ∧
    (Box.mk (⟨0, 0⟩ : Vec2 ℚ) ⟨10, 10⟩).contains ⟨100001 / 10000, 5⟩ = false ∧
    (∀ p : Point, (Box.mk p p).contains p = true) := by
  refine ⟨Box.contains_iff, by decide, by decide, by decide, ?_, fun p => ?_⟩
  · simp only [Box.contains, Bool.and_eq_true, decide_eq_true_eq, ge_iff_le]
    norm_num
  · rw [Box.contains_iff]
    exact ⟨le_refl _, le_refl _, le_refl _, le_refl _⟩

/-! ## Rectangle lemmas -/

/-- C8: for a rectangle with orthogonal side vectors, `Rectangle::contains`
returns true iff for both basis vectors the scalar projection of `ap = p - a`
lies between `0` and the squared length of that basis vector, boundary
inclusive. -/
theorem rectangle_contains_iff (r : Rectangle ℚ) (p : Point)
    (h : r.ab.dot r.ad = 0) :
    r.contains p = true ↔
      (0 ≤ (p.sub r.a).dot r.ab ∧ (p.sub r.a).dot r.ab ≤ r.ab.dot r.ab ∧
       0 ≤ (p.sub r.a).dot r.ad ∧ (p.sub r.a).dot r.ad ≤ r.ad.dot r.ad) := by
  simp only [Rectangle.contains, List.foldl_cons, List.foldl_nil, Bool.true_and,
             Bool.and_eq_true, decide_eq_true_eq]
  tauto

/-- Witness for C8 at the axis-aligned rectangle with corner `(0,0)` and
sides `(10,0)`, `(0,4)` (an orthogonal pair), tested at `(5,2)`. -/
theorem rectangle_contains_iff_witness :
    (Vec2.dot (⟨10, 0⟩ : Vec2 ℚ) ⟨0, 4⟩ = 0) ∧
    ((Rectangle.mk (⟨0, 0⟩ : Vec2 ℚ) ⟨10, 0⟩ ⟨0, 4⟩).contains ⟨5, 2⟩ = true ↔
      (0 ≤ (Vec2.sub (⟨5, 2⟩ : Vec2 ℚ) ⟨0, 0⟩).dot ⟨10, 0⟩ ∧
       (Vec2.sub (⟨5, 2⟩ : Vec2 ℚ) ⟨0, 0⟩).dot ⟨10, 0⟩ ≤
         Vec2.dot (⟨10, 0⟩ : Vec2 ℚ) ⟨10, 0⟩ ∧
       0 ≤ (Vec2.sub (⟨5, 2⟩ : Vec2 ℚ) ⟨0, 0⟩).dot ⟨0, 4⟩ ∧
       (Vec2.sub (⟨5, 2⟩ : Vec2 ℚ) ⟨0, 0⟩).dot ⟨0, 4⟩ ≤
         Vec2.dot (⟨0, 4⟩ : Vec2 ℚ) ⟨0, 4⟩)) :=
  ⟨by simp [Vec2.dot],
   rectangle_contains_iff (Rectangle.mk ⟨0, 0⟩ ⟨10, 0⟩ ⟨0, 4⟩) ⟨5, 2⟩ (by simp [Vec2.dot])⟩

/-- The example rectangle of the spec: `along_line_segment((0,0), (10,0), 4)`
evaluates to corner `(0,-2)` with sides `(10,0)` and `(0,4)`. -/
theorem along_line_segment_example :
    Rectangle.along_line_segment ⟨0, 0⟩ ⟨10, 0⟩ 4 =
      Rectangle.mk ⟨0, -2⟩ ⟨10, 0⟩ ⟨0, 4⟩ := by
  have h100 : Real.sqrt ((-(0:ℝ)) * (-0) + 10 * 10) = 10 := by
    rw [show ((-(0:ℝ)) * (-0) + 10 * 10) = 10 ^ 2 by norm_num]
    exact Real.sqrt_sq (by norm_num)
  simp only [Rectangle.along_line_segment, Vec2.normalize_or_zero, Vec2.length,
             Vec2.dot, Vec2.perp, Vec2.mul, Vec2.smul, Vec2.sub, h100]
  rw [if_pos (by norm_num : (0:ℝ) < 10)]
  simp only [Rectangle.mk.injEq, Vec2.mk.injEq]
  norm_num

/-- The side `ad` produced by `along_line_segment` is always orthogonal to
the direction vector `v`. -/
theorem along_ad_dot_v (p v : Vec2 ℝ) (w : ℝ) :
    ((Rectangle.along_line_segment p v w).ad).dot v = 0 := by
  simp only [Rectangle.along_line_segment, Vec2.normalize_or_zero]
  split
  · simp only [Vec2.mul, Vec2.dot, Vec2.perp]
    ring
  · simp only [Vec2.mul, Vec2.dot]
    ring

/-- Zero-vector safety of `along_line_segment`: a zero direction vector
yields the zero side vector `ad` instead of a division error. -/
theorem along_zero_vector (p : Vec2 ℝ) (w : ℝ) :
    (Rectangle.along_line_segment p ⟨0, 0⟩ w).ad = ⟨0, 0⟩ := by
  simp only [Rectangle.along_line_segment, Vec2.normalize_or_zero, Vec2.length,
             Vec2.perp, Vec2.dot]
  rw [if_neg (by norm_num [Real.sqrt_eq_zero'] : ¬ (0:ℝ) < Real.sqrt (-0 * -0 + 0 * 0))]
  simp [Vec2.mul]

/-- C9: `along_line_segment(p, v, w)` has `ab = v`, `ad` the normalized
perpendicular of `v` scaled by `w` (the zero vector when `v` is zero, and
always orthogonal to `v`), and corner `a = p - 0.5 * ad`; the example
rectangle `along_line_segment((0,0), (10,0), 4)` contains `(5,0)`,
`(5,1.9)`, `(5,-1.9)` and contains neither `(5,2.1)` nor `(-0.1,0)`. -/
theorem along_line_segment_spec :
    (∀ (p v : Vec2 ℝ) (w : ℝ), (Rectangle.along_line_segment p v w).ab = v) ∧
    (∀ (p v : Vec2 ℝ) (w : ℝ),
      (Rectangle.along_line_segment p v w).ad = (v.perp.normalize_or_zero).mul w) ∧
    (∀ (p v : Vec2 ℝ) (w : ℝ),
      (Rectangle.along_line_segment p v w).a =
        p.sub (Vec2.smul 0.5 (Rectangle.along_line_segment p v w).ad)) ∧
    (∀ (p : Vec2 ℝ) (w : ℝ), (Rectangle.along_line_segment p ⟨0, 0⟩ w).ad = ⟨0, 0⟩) ∧
    (∀ (p v : Vec2 ℝ) (w : ℝ), ((Rectangle.along_line_segment p v w).ad).dot v = 0) ∧
    (Rectangle.along_line_segment ⟨0, 0⟩ ⟨10, 0⟩ 4).contains ⟨5, 0⟩ = true ∧
    (Rectangle.along_line_segment ⟨0, 0⟩ ⟨10, 0⟩ 4).contains ⟨5, 1.9⟩ = true ∧
    (Rectangle.along_line_segment ⟨0, 0⟩ ⟨10, 0⟩ 4).contains ⟨5, -1.9⟩ = true ∧
    (Rectangle.along_line_segment ⟨0, 0⟩ ⟨10, 0⟩ 4).contains ⟨5, 2.1⟩ = false ∧
    (Rectangle.along_line_segment ⟨0, 0⟩ ⟨10, 0⟩ 4).contains ⟨-0.1, 0⟩ = false := by
  refine ⟨fun p v w => rfl, fun p v w => rfl, fun p v w => rfl,
          along_zero_vector, along_ad_dot_v, ?_, ?_, ?_, ?_, ?_⟩ <;>
    rw [along_line_segment_example] <;>
    simp only [Rectangle.contains, List.foldl_cons, List.foldl_nil, Bool.true_and,
               Bool.and_eq_true, Bool.and_eq_false_iff, decide_eq_true_eq,
               decide_eq_false_iff_not, Vec2.sub, Vec2.dot] <;>
    norm_num

/-! ## Canvas stroke state machine -/

/-- C3: whenever a stroke is in progress, `end_stroke` succeeds, clears the
in-progress slot, and appends the in-progress curve to the end of the
committed collection unconditionally (no check on its number of points), so
the committed collection grows by exactly one. -/
theorem end_stroke_commits_unconditionally (c : Canvas) (curve : Curve)
    (h : c.current_curve = some curve) :
    (c.end_stroke).1 = Except.ok () ∧
    (c.end_stroke).2.current_curve = none ∧
    (c.end_stroke).2.curves = c.curves ++ [curve] ∧
    (c.end_stroke).2.curves.length = c.curves.length + 1 := by
  simp [Canvas.end_stroke, h]

/-- Witness for C3: ending a stroke on a canvas holding the one-point
in-progress curve at the origin. -/
theorem end_stroke_commits_unconditionally_witness :
    ((Canvas.mk [] (some (Curve.new ⟨0, 0⟩))).current_curve = some (Curve.new ⟨0, 0⟩)) ∧
    ((Canvas.mk [] (some (Curve.new ⟨0, 0⟩))).end_stroke.1 = Except.ok () ∧
     (Canvas.mk [] (some (Curve.new ⟨0, 0⟩))).end_stroke.2.current_curve = none ∧
     (Canvas.mk [] (some (Curve.new ⟨0, 0⟩))).end_stroke.2.curves = [] ++ [Curve.new ⟨0, 0⟩] ∧
     (Canvas.mk [] (some (Curve.new ⟨0, 0⟩))).end_stroke.2.curves.length =
       ([] : List Curve).length + 1) :=
  ⟨rfl, end_stroke_commits_unconditionally (Canvas.mk [] (some (Curve.new ⟨0, 0⟩)))
          (Curve.new ⟨0, 0⟩) rfl⟩

/-- C1 counterexample: the code does not discard single-point curves.
Starting from the default canvas, `begin_stroke((0,0))` immediately followed
by `end_stroke()` leaves the committed collection nonempty (it now holds the
one-point curve), contradicting the claim that it is left unchanged. -/
theorem single_point_commit_counterexample :
    ((Canvas.default.begin_stroke ⟨0, 0⟩).2.end_stroke).2.curves ≠ [] := by
  decide

/-- C1 (amended: `end_stroke` commits the in-progress curve even when it has
exactly one point; nothing is discarded): on a canvas with no stroke in
progress, `begin_stroke(p)` immediately followed by `end_stroke()` appends
the one-point curve at `p` to the committed collection. -/
theorem begin_end_commits_single_point (c : Canvas) (p : Point)
    (h : c.current_curve = none) :
    ((c.begin_stroke p).2.end_stroke).2.curves = c.curves ++ [Curve.new p] ∧
    ((c.begin_stroke p).2.end_stroke).2.current_curve = none := by
  simp [Canvas.begin_stroke, Canvas.end_stroke, h]

/-- Witness for the amended C1 at the default canvas and the origin. -/
theorem begin_end_commits_single_point_witness :
    (Canvas.default.current_curve = none) ∧
    (((Canvas.default.begin_stroke ⟨0, 0⟩).2.end_stroke).2.curves =
       Canvas.default.curves ++ [Curve.new ⟨0, 0⟩] ∧
     ((Canvas.default.begin_stroke ⟨0, 0⟩).2.end_stroke).2.current_curve = none) :=
  ⟨rfl, begin_end_commits_single_point Canvas.default ⟨0, 0⟩ rfl⟩

/-- C4: `begin_stroke` while a stroke is already in progress fails with the
`AlreadyExists` error (called `AlreadyInProgress` in the spec) and returns the
canvas completely unchanged. -/
theorem begin_stroke_already_in_progress (c : Canvas) (p : Point)
    (h : c.current_curve.isSome = true) :
    c.begin_stroke p = (Except.error ⟨⟩, c) := by
  simp [Canvas.begin_stroke, h]

/-- Witness for C4: beginning a second stroke on a canvas already drawing a
curve that has accumulated two points. -/
theorem begin_stroke_already_in_progress_witness :
    ((Canvas.mk [] (some ((Curve.new ⟨1, 1⟩).add_point ⟨2, 2⟩))).current_curve.isSome = true) ∧
    (Canvas.mk [] (some ((Curve.new ⟨1, 1⟩).add_point ⟨2, 2⟩))).begin_stroke ⟨3, 3⟩ =
      (Except.error ⟨⟩, Canvas.mk [] (some ((Curve.new ⟨1, 1⟩).add_point ⟨2, 2⟩))) :=
  ⟨rfl, begin_stroke_already_in_progress
          (Canvas.mk [] (some ((Curve.new ⟨1, 1⟩).add_point ⟨2, 2⟩))) ⟨3, 3⟩ rfl⟩

/-- C5: with no stroke in progress, both `continue_stroke` (at any point)
and `end_stroke` fail with the `DoesntExist` error (called
`NotInProgress` in the spec) and return the canvas completely unchanged. -/
theorem stroke_ops_not_in_progress (c : Canvas) (p : Point)
    (h : c.current_curve = none) :
    c.continue_stroke p = (Except.error ⟨⟩, c) ∧
    c.end_stroke = (Except.error ⟨⟩, c) := by
  simp [Canvas.continue_stroke, Canvas.end_stroke, h]

/-- Witness for C5 on a canvas with a committed curve and no stroke in
progress. -/
theorem stroke_ops_not_in_progress_witness :
    ((Canvas.mk [Curve.new ⟨7, 7⟩] none).current_curve = none) ∧
    ((Canvas.mk [Curve.new ⟨7, 7⟩] none).continue_stroke ⟨4, 4⟩ =
       (Except.error ⟨⟩, Canvas.mk [Curve.new ⟨7, 7⟩] none) ∧
     (Canvas.mk [Curve.new ⟨7, 7⟩] none).end_stroke =
       (Except.error ⟨⟩, Canvas.mk [Curve.new ⟨7, 7⟩] none)) :=
  ⟨rfl, stroke_ops_not_in_progress (Canvas.mk [Curve.new ⟨7, 7⟩] none) ⟨4, 4⟩ rfl⟩

/-- C10: `render` leaves the canvas unchanged, two consecutive calls produce
the same output, and the output is the committed curves in insertion order
followed by the in-progress curve if present. -/
theorem render_pure (c : Canvas) :
    (c.render).2 = c ∧
    ((c.render).2).render.1 = (c.render).1 ∧
    (c.render).1 =
      c.curves ++ (match c.current_curve with | some curve => [curve] | none => []) :=
  ⟨rfl, rfl, rfl⟩

/-! ## Erase session -/

/-- C2: with an erase session in progress remembering previous point `q`,
`continue_erasure(p)` succeeds, updates the remembered point to `p`, and the
surviving committed curves are exactly those that do not intersect the swept
segment `q`-`p` (every intersecting curve is removed, every non-intersecting
curve survives, in their original relative order). -/
theorem continue_erasure_spec (c : EraseCanvas) (q p : Point)
    (h : c.prev_erase_point = some q) :
    (c.continue_erasure p).1 = Except.ok () ∧
    (c.continue_erasure p).2.prev_erase_point = some p ∧
    (c.continue_erasure p).2.curves =
      c.curves.filter (fun curve => !(curve.intersects_segment q p)) ∧
    (∀ curve : Curve,
      curve ∈ (c.continue_erasure p).2.curves ↔
        (curve ∈ c.curves ∧ curve.intersects_segment q p = false)) := by
  refine ⟨by simp [EraseCanvas.continue_erasure, h],
          by simp [EraseCanvas.continue_erasure, h],
          by simp [EraseCanvas.continue_erasure, h], fun curve => ?_⟩
  simp [EraseCanvas.continue_erasure, h, List.mem_filter]

/-- Witness for C2, the erase example of the spec: one committed curve along the
segment `(0,0)`-`(10,0)`, eraser swept from `(5,-5)` to `(5,5)`; the
surviving collection is the filter of the original (and, by evaluation, that
filter is empty — the crossing curve is removed). -/
theorem continue_erasure_spec_witness :
    ((EraseCanvas.mk [(Curve.new ⟨0, 0⟩).add_point ⟨10, 0⟩]
        (some ⟨5, -5⟩)).prev_erase_point = some ⟨5, -5⟩) ∧
    (((EraseCanvas.mk [(Curve.new ⟨0, 0⟩).add_point ⟨10, 0⟩]
         (some ⟨5, -5⟩)).continue_erasure ⟨5, 5⟩).1 = Except.ok () ∧
     ((EraseCanvas.mk [(Curve.new ⟨0, 0⟩).add_point ⟨10, 0⟩]
         (some ⟨5, -5⟩)).continue_erasure ⟨5, 5⟩).2.prev_erase_point = some ⟨5, 5⟩ ∧
     ((EraseCanvas.mk [(Curve.new ⟨0, 0⟩).add_point ⟨10, 0⟩]
         (some ⟨5, -5⟩)).continue_erasure ⟨5, 5⟩).2.curves =
       [(Curve.new ⟨0, 0⟩).add_point ⟨10, 0⟩].filter
         (fun curve => !(curve.intersects_segment ⟨5, -5⟩ ⟨5, 5⟩)) ∧
     (∀ curve : Curve,
       curve ∈ ((EraseCanvas.mk [(Curve.new ⟨0, 0⟩).add_point ⟨10, 0⟩]
                   (some ⟨5, -5⟩)).continue_erasure ⟨5, 5⟩).2.curves ↔
         (curve ∈ [(Curve.new ⟨0, 0⟩).add_point ⟨10, 0⟩] ∧
          curve.intersects_segment ⟨5, -5⟩ ⟨5, 5⟩ = false))) ∧
    ((EraseCanvas.mk [(Curve.new ⟨0, 0⟩).add_point ⟨10, 0⟩]
        (some ⟨5, -5⟩)).continue_erasure ⟨5, 5⟩).2.curves = [] :=
  ⟨rfl,
   continue_erasure_spec
     (EraseCanvas.mk [(Curve.new ⟨0, 0⟩).add_point ⟨10, 0⟩] (some ⟨5, -5⟩))
     ⟨5, -5⟩ ⟨5, 5⟩ rfl,
   by
     simp only [EraseCanvas.continue_erasure, Curve.intersects_segment, Curve.add_point,
                Curve.new, List.filter, segments_intersect, orient, on_segment]
     norm_num⟩

end Handwrite
